import Mathlib

/-!
Verification development for `radiosonde_auto_rx`'s `SondeDecoder`
(`src/auto_rx/autorx/decode.py`).

The Python class runs a decoder subprocess and, per output line, calls
`handle_decoder_line`; its `decoder_thread` loop drains lines, tracks a
staleness timer, and tears down on timeout / encrypted telemetry / stop.

Shallow embedding conventions:
  * Python values stored in the telemetry dict are modelled by `PyObj`
    (JSON values plus the `datetime` objects inserted by the code); Python
    ints and floats are both modelled as `Rat` (so `-1` and `-1.0` coincide,
    which is also how `==` treats them in Python).
  * A Python dict is a key-ordered association list `List (String × PyObj)`
    with unique keys maintained by `set_key` (assignment replaces in place
    or appends, as CPython dicts do).
  * External collaborators that are out of scope per the code's imports
    (`json.loads`, `dateutil.parser.parse`, `"%.3f MHz" % x` float
    formatting, and `imet_fix_datetime` / `imet_unique_id` from
    `sonde_specific`, a module not part of this file) are fields of
    `DecoderCfg`, i.e. parameters of the model.
  * Uncaught Python exceptions are `PyExc` in an `Except`; exceptions the
    source catches (`UnicodeDecodeError` at line 418, the bare `except
    Exception` around `json.loads` and `parse`, filter and exporter
    failures) are folded into the corresponding returned outcome.
  * The Python return values `None` / `True` / `False` of
    `handle_decoder_line` are `PyRet`; the caller only tests truthiness.
-/

namespace Radiosonde

/-- Model of the Python values that can appear in the telemetry dict:
JSON values plus the opaque `datetime` objects the code inserts under
`datetime_dt` (represented by an abstract code `Nat`). -/
inductive PyObj where
  | null : PyObj
  | bool (b : Bool) : PyObj
  | num (q : Rat) : PyObj
  | str (s : String) : PyObj
  | arr (xs : List PyObj) : PyObj
  | obj (kvs : List (String × PyObj)) : PyObj
  | dt (d : Nat) : PyObj

/-- First-match lookup in a Python dict (keys are unique in CPython, so
first match is the match). -/
def pylookup : List (String × PyObj) → String → Option PyObj
  | [], _ => none
  | (k, v) :: rest, key => if k = key then some v else pylookup rest key

/-- Python `key in dict`. -/
def has_key (kvs : List (String × PyObj)) (key : String) : Bool :=
  (pylookup kvs key).isSome

/-- Python `dict[key] = v`: replace in place if the key exists, else append
(CPython dicts preserve insertion order). -/
def set_key : List (String × PyObj) → String → PyObj → List (String × PyObj)
  | [], key, v => [(key, v)]
  | (k, w) :: rest, key, v =>
    if k = key then (key, v) :: rest else (k, w) :: set_key rest key v

/-- Python `_telemetry['type'] += "-Ozone"` (decode.py line 474): read the
current `'type'` value, which the code has just set to a string two
statements earlier, and append the suffix.  The non-string fallback branch
is unreachable on every call site. -/
def ozone_suffix (kvs : List (String × PyObj)) : List (String × PyObj) :=
  match pylookup kvs "type" with
  | some (.str s) => set_key kvs "type" (.str (s ++ "-Ozone"))
  | _ => kvs

/-- decode.py line 56. -/
def DECODER_REQUIRED_FIELDS : List String :=
  ["frame", "id", "datetime", "lat", "lon", "alt"]

/-- decode.py lines 57-64; Python `-273.0`, `-1`, `0.0` are all `Rat`
literals here. -/
def DECODER_OPTIONAL_FIELDS : List (String × PyObj) :=
  [("temp", .num (-273)), ("humidity", .num (-1)), ("batt", .num (-1)),
   ("vel_h", .num 0), ("vel_v", .num 0), ("heading", .num 0)]

/-- One step of the optional-field loop (decode.py lines 444-446): if the
field is absent, assign the default. -/
def fill_step (acc : List (String × PyObj)) (kv : String × PyObj) :
    List (String × PyObj) :=
  if has_key acc kv.1 then acc else set_key acc kv.1 kv.2

/-- decode.py lines 443-446: add every absent optional field with its
sentinel default. -/
def fill_optional (kvs : List (String × PyObj)) : List (String × PyObj) :=
  DECODER_OPTIONAL_FIELDS.foldl fill_step kvs

/-- The uncaught Python exceptions `handle_decoder_line` can raise:
`IndexError` from `data.decode('ascii')[0]` on the empty line (line 417),
`KeyError` from `_telemetry['sats']` / `_telemetry['datetime']` subscripts
outside any `try` (lines 480, 486), and `TypeError` from comparing a
non-number with `4` at line 480 (Python 3 semantics). -/
inductive PyExc where
  | indexError : PyExc
  | keyError (k : String) : PyExc
  | typeError : PyExc
deriving DecidableEq

/-- Python return value of `handle_decoder_line`: a bare `return` gives
`None`, otherwise a bool.  The caller only tests truthiness. -/
inductive PyRet where
  | noneVal : PyRet
  | boolVal (b : Bool) : PyRet
deriving DecidableEq

/-- Python truthiness of a `handle_decoder_line` result
(`if _ok:` at decode.py line 360). -/
def PyRet.truthy : PyRet → Bool
  | .noneVal => false
  | .boolVal b => b

/-- The mutable per-instance attributes `handle_decoder_line` and
`decoder_thread` touch, plus a ghost log `exports` recording each exporter
invocation (the record passed to it), in order. -/
structure MutState where
  imet_id : Option String
  exit_state : String
  decoder_running : Bool
  exports : List (List (String × PyObj))

/-- The attributes fixed at `__init__` (decode.py lines 119-140) together
with the external collaborators the method calls. `parse_json` models
`json.loads` (`none` = any exception, caught at line 428); `parse_datetime`
models `dateutil.parser.parse` (`none` = any exception, caught at line 459,
the "no GPS lock" case); `format_freq` models `"%.3f MHz" % x`;
`imet_fix_datetime` and `imet_unique_id` model the `sonde_specific`
functions of the same names (imported at line 20, module out of scope);
`telem_filter` and `exporters` are the constructor arguments after
normalization, with `Except Unit` modelling "raised some exception". -/
structure DecoderCfg where
  sonde_type : String
  sonde_freq : Rat
  device_idx : PyObj
  imet_location : String
  timeout : Rat
  parse_json : List Nat → Option PyObj
  parse_datetime : PyObj → Option Nat
  format_freq : Rat → String
  imet_fix_datetime : PyObj → Nat
  imet_unique_id : List (String × PyObj) → String → String
  telem_filter : Option (List (String × PyObj) → Except Unit Bool)
  exporters : Option (List (List (String × PyObj) → Except Unit Unit))

/-- The state right after `__init__` (decode.py lines 116, 140, 145):
`imet_id = None`, `exit_state = "OK"`, `decoder_running = True`. -/
def initial_state : MutState :=
  { imet_id := none, exit_state := "OK", decoder_running := true,
    exports := [] }

/-- Outcome of the normalization part of `handle_decoder_line`
(decode.py lines 415-493): an uncaught exception, an early `return`
(`None` or `False`) with the possibly updated state, or the record
reaching the filter/dispatch part at line 495. -/
inductive NormResult where
  | raiseExc (e : PyExc) : NormResult
  | reject (r : PyRet) (st : MutState) : NormResult
  | accept (telem : List (String × PyObj)) (st : MutState) : NormResult

/-- Whether a `NormResult` reached the dispatch stage. -/
def NormResult.isAccept : NormResult → Bool
  | .accept _ _ => true
  | _ => false

/-- decode.py line 480, `_telemetry['sats'] < 4` under Python 3: numbers
compare numerically, `True`/`False` are the integers `1`/`0` (both `< 4`),
anything else raises `TypeError`. -/
def py_lt_four : PyObj → Except PyExc Bool
  | .num q => .ok (decide (q < 4))
  | .bool _ => .ok true
  | _ => .error .typeError

/-- decode.py lines 458-474: add `datetime_dt`, `type`, `freq_float`,
`freq`, `sdr_device_idx`, and the `-Ozone` type suffix when an `aux` key
is present.  `d` is the parsed datetime. -/
def derived_fields (cfg : DecoderCfg) (kvs : List (String × PyObj))
    (d : Nat) : List (String × PyObj) :=
  let kvs2 := set_key kvs "datetime_dt" (.dt d)
  let kvs3 := set_key kvs2 "type" (.str cfg.sonde_type)
  let kvs4 := set_key kvs3 "freq_float" (.num (cfg.sonde_freq / 1000000))
  let kvs5 := set_key kvs4 "freq" (.str (cfg.format_freq (cfg.sonde_freq / 1000000)))
  let kvs6 := set_key kvs5 "sdr_device_idx" cfg.device_idx
  if has_key kvs6 "aux" then ozone_suffix kvs6 else kvs6

/-- decode.py lines 477-493: the iMet-specific block (GPS-lock check,
timestamp repair, identity latch and stamp), falling through to the
record that reaches the filter at line 495.  For non-iMet types this is
the identity fall-through. -/
def family_stage (cfg : DecoderCfg) (st : MutState)
    (kvs : List (String × PyObj)) : NormResult :=
  if cfg.sonde_type = "iMet" then
    match pylookup kvs "sats" with
    | none => .raiseExc (.keyError "sats")
    | some sv =>
      match py_lt_four sv with
      | .error e => .raiseExc e
      | .ok true => .reject (.boolVal false) st
      | .ok false =>
        match pylookup kvs "datetime" with
        | none => .raiseExc (.keyError "datetime")
        | some dv =>
          let kvs8 := set_key kvs "datetime_dt" (.dt (cfg.imet_fix_datetime dv))
          match st.imet_id with
          | some i =>
            .accept (set_key (set_key kvs8 "id" (.str i))
                       "station_code" (.str cfg.imet_location)) st
          | none =>
            let i := cfg.imet_unique_id kvs8 cfg.imet_location
            .accept (set_key (set_key kvs8 "id" (.str i))
                       "station_code" (.str cfg.imet_location))
              { st with imet_id := some i }
  else .accept kvs st

/-- decode.py lines 415-493: everything `handle_decoder_line` does before
the filter/dispatch block, on one raw byte line.

On the empty line, `data.decode('ascii')` succeeds (yielding `""`) and
the subscript `[0]` at line 417 raises `IndexError`, which the
`except UnicodeDecodeError` clause does not catch.  On a nonempty line,
any byte > 127 makes `decode('ascii')` raise `UnicodeDecodeError`, caught
at lines 418-419 (`return`, i.e. `None`). -/
def normalize (cfg : DecoderCfg) (st : MutState) :
    List Nat → NormResult
  | [] => .raiseExc .indexError
  | c :: cs =>
    if ¬ ((c :: cs).all fun b => b < 128) then .reject .noneVal st
    else
      -- line 422: lines not starting with '{' (byte 123) return None.
      if c ≠ 123 then .reject .noneVal st
      else
        match cfg.parse_json (c :: cs) with
        -- lines 426-430: any json.loads exception returns False.
        | none => .reject (.boolVal false) st
        | some t =>
          match t with
          | .obj kvs0 =>
            -- lines 437-441: every required field must be present.
            if ¬ (DECODER_REQUIRED_FIELDS.all fun f => has_key kvs0 f) then
              .reject (.boolVal false) st
            else
              -- lines 443-446 fill the optional fields, then
              -- lines 449-454: presence of 'encrypted' is fatal.
              if has_key (fill_optional kvs0) "encrypted" then
                .reject (.boolVal false)
                  { st with exit_state := "Encrypted",
                            decoder_running := false }
              else
                -- lines 456-461: parse the datetime; the subscript and
                -- the parse both sit inside `try ... except Exception`.
                match pylookup (fill_optional kvs0) "datetime" with
                | none => .reject (.boolVal false) st
                | some dtv =>
                  match cfg.parse_datetime dtv with
                  | none => .reject (.boolVal false) st
                  | some d =>
                    family_stage cfg st
                      (derived_fields cfg (fill_optional kvs0) d)
          -- lines 432-435: parsed JSON that is not a dict returns False.
          | _ => .reject (.boolVal false) st

/-- decode.py lines 495-504: run the telemetry filter; absence or any
exception from it counts as accept. -/
def filter_outcome (cfg : DecoderCfg)
    (telem : List (String × PyObj)) : Bool :=
  match cfg.telem_filter with
  | none => true
  | some f =>
    match f telem with
    | .ok b => b
    | .error _ => true

/-- decode.py lines 495-518: the filter/dispatch block.  With no exporter
list (`self.exporters is None`) the bare `return` at line 509 yields
`None`; otherwise every exporter is invoked when the filter accepted
(each invocation is appended to the ghost `exports` log; exporter
exceptions are caught per exporter at lines 513-516) and `_telem_ok` is
returned. -/
def dispatch_record (cfg : DecoderCfg) (st : MutState)
    (telem : List (String × PyObj)) : PyRet × MutState :=
  let ok := filter_outcome cfg telem
  match cfg.exporters with
  | none => (.noneVal, st)
  | some es =>
    (.boolVal ok,
      if ok then { st with exports := st.exports ++ es.map fun _ => telem }
      else st)

/-- decode.py lines 402-518: `handle_decoder_line` on one raw line, as
normalization followed by dispatch. -/
def handle_decoder_line (cfg : DecoderCfg) (st : MutState)
    (data : List Nat) : Except PyExc (PyRet × MutState) :=
  match normalize cfg st data with
  | .raiseExc e => .error e
  | .reject r st' => .ok (r, st')
  | .accept telem st' => .ok (dispatch_record cfg st' telem)

/-- One iteration of the `decoder_thread` polling loop (decode.py lines
352-372), as seen from outside: the `async_reader.eof()` value, the drained
lines each paired with the `time.time()` value that would be stored were
the line accepted (line 361), and the `time.time()` value read at the
timeout check (line 365). -/
structure Tick where
  eof : Bool
  lines : List (List Nat × Rat)
  check_time : Rat

/-- decode.py lines 354-361: the inner `for` over `async_reader.readlines()`.
The guard `if (_line != None) and (_line != "")` is modelled as
nonemptiness of the byte line (its Python-2-era intent; the reader yields
lines of the subprocess's stdout).  A truthy `handle_decoder_line` result
updates `_last_packet`. -/
def process_lines (cfg : DecoderCfg) :
    MutState → Rat → List (List Nat × Rat) → Except PyExc (MutState × Rat)
  | st, last, [] => .ok (st, last)
  | st, last, (ln, t) :: rest =>
    if ln = [] then process_lines cfg st last rest
    else
      match handle_decoder_line cfg st ln with
      | .error e => .error e
      | .ok (r, st') =>
        process_lines cfg st' (if r.truthy then t else last) rest

/-- decode.py lines 352-372: the `while (not eof) and decoder_running`
loop, driven by a finite trace of ticks.  An exhausted trace returns the
state the loop is still running with; a `break` at the timeout check
(lines 365-369) stamps `exit_state = "Timeout"` (the spec's `TimedOut`).
An uncaught exception from `handle_decoder_line` propagates, killing the
thread before any exit state is recorded. -/
def run_loop (cfg : DecoderCfg) :
    MutState → Rat → List Tick → Except PyExc MutState
  | st, _, [] => .ok st
  | st, last, tk :: rest =>
    if tk.eof ∨ ¬ st.decoder_running then .ok st
    else
      match process_lines cfg st last tk.lines with
      | .error e => .error e
      | .ok (st', last') =>
        if last' + cfg.timeout < tk.check_time then
          .ok { st' with exit_state := "Timeout" }
        else run_loop cfg st' last' rest

/-- The Python type of one entry of the `exporter` constructor argument,
as `type()` sees it: a plain function (`FunctionType`, which is what
lambdas and module-level functions are), a bound method (`MethodType`),
some other callable object, or a non-callable value. -/
inductive ExpVal where
  | func : ExpVal
  | meth : ExpVal
  | callObj : ExpVal
  | nonCall : ExpVal
deriving DecidableEq

/-- The `exporter` constructor argument itself: `None`, a single value,
a list of values, or something of another type (e.g. a tuple or string). -/
inductive ExporterArg where
  | enone : ExporterArg
  | single (v : ExpVal) : ExporterArg
  | elist (vs : List ExpVal) : ExporterArg
  | eother : ExporterArg
deriving DecidableEq

/-- decode.py line 183: a list entry passes iff its type is `FunctionType`
or `MethodType`. -/
def exp_entry_ok : ExpVal → Bool
  | .func => true
  | .meth => true
  | _ => false

/-- decode.py lines 170-191: normalization of the `exporter` argument in
`__init__`.  `None` stays `None`; a value whose `type()` is exactly
`FunctionType` is wrapped in a list; a list is kept if every entry is a
function or bound method, else `TypeError`; everything else (including a
single bound method or other callable) falls to the final `else` and
raises `TypeError`.  The error strings are the source's messages. -/
def normalize_exporter (a : ExporterArg) :
    Except String (Option (List ExpVal)) :=
  match a with
  | .enone => .ok none
  | .single .func => .ok (some [.func])
  | .elist vs =>
    if vs.all exp_entry_ok then .ok (some vs)
    else .error "Supplied exporter list does not contain functions."
  | .single _ => .error "Supplied exporter has incorrect type."
  | .eother => .error "Supplied exporter has incorrect type."

/-! ### Association-list lemmas -/

@[simp] theorem pylookup_nil (key : String) :
    pylookup [] key = none := rfl

@[simp] theorem pylookup_cons (k : String) (v : PyObj)
    (rest : List (String × PyObj)) (key : String) :
    pylookup ((k, v) :: rest) key =
      if k = key then some v else pylookup rest key := rfl

@[simp] theorem set_key_nil (key : String) (v : PyObj) :
    set_key [] key v = [(key, v)] := rfl

@[simp] theorem set_key_cons (a : String) (b : PyObj)
    (rest : List (String × PyObj)) (key : String) (v : PyObj) :
    set_key ((a, b) :: rest) key v =
      if a = key then (key, v) :: rest else (a, b) :: set_key rest key v := rfl

theorem pylookup_append_of_some {xs ys : List (String × PyObj)} {k : String}
    {v : PyObj} (h : pylookup xs k = some v) :
    pylookup (xs ++ ys) k = some v := by
  induction xs with
  | nil => simp at h
  | cons p rest ih =>
    obtain ⟨a, b⟩ := p
    rw [List.cons_append, pylookup_cons]
    rw [pylookup_cons] at h
    split at h
    · rename_i hak
      rw [if_pos hak]
      exact h
    · rename_i hak
      rw [if_neg hak]
      exact ih h

theorem pylookup_append_of_none {xs : List (String × PyObj)} {k : String}
    (h : pylookup xs k = none) (ys : List (String × PyObj)) :
    pylookup (xs ++ ys) k = pylookup ys k := by
  induction xs with
  | nil => simp
  | cons p rest ih =>
    obtain ⟨a, b⟩ := p
    rw [pylookup_cons] at h
    split at h
    · simp at h
    · rename_i hak
      rw [List.cons_append, pylookup_cons, if_neg hak]
      exact ih h

theorem pylookup_set_key_self (kvs : List (String × PyObj)) (k : String)
    (v : PyObj) : pylookup (set_key kvs k v) k = some v := by
  induction kvs with
  | nil => simp
  | cons p rest ih =>
    obtain ⟨a, b⟩ := p
    rw [set_key_cons]
    split
    · simp
    · rename_i hak
      rw [pylookup_cons, if_neg hak]
      exact ih

theorem pylookup_set_key_ne (kvs : List (String × PyObj)) {k k' : String}
    (v : PyObj) (h : k' ≠ k) :
    pylookup (set_key kvs k v) k' = pylookup kvs k' := by
  induction kvs with
  | nil => simp [Ne.symm h]
  | cons p rest ih =>
    obtain ⟨a, b⟩ := p
    rw [set_key_cons]
    split
    · rename_i hak
      rw [pylookup_cons, pylookup_cons, if_neg (Ne.symm h), hak,
        if_neg (Ne.symm h)]
    · rw [pylookup_cons, pylookup_cons]
      by_cases hak' : a = k'
      · rw [if_pos hak', if_pos hak']
      · rw [if_neg hak', if_neg hak']
        exact ih

theorem pylookup_ozone_ne (kvs : List (String × PyObj)) {k : String}
    (h : k ≠ "type") :
    pylookup (ozone_suffix kvs) k = pylookup kvs k := by
  unfold ozone_suffix
  split
  · rw [pylookup_set_key_ne _ _ h]
  · rfl

/-- A key that is none of the five keys written by `derived_fields` (nor
`type`, which `ozone_suffix` rewrites) keeps its lookup. -/
theorem pylookup_derived_ne (cfg : DecoderCfg)
    (kvs : List (String × PyObj)) (d : Nat) {k : String}
    (h1 : k ≠ "datetime_dt") (h2 : k ≠ "type") (h3 : k ≠ "freq_float")
    (h4 : k ≠ "freq") (h5 : k ≠ "sdr_device_idx") :
    pylookup (derived_fields cfg kvs d) k = pylookup kvs k := by
  simp only [derived_fields]
  split
  · rw [pylookup_ozone_ne _ h2, pylookup_set_key_ne _ _ h5,
      pylookup_set_key_ne _ _ h4, pylookup_set_key_ne _ _ h3,
      pylookup_set_key_ne _ _ h2, pylookup_set_key_ne _ _ h1]
  · rw [pylookup_set_key_ne _ _ h5, pylookup_set_key_ne _ _ h4,
      pylookup_set_key_ne _ _ h3, pylookup_set_key_ne _ _ h2,
      pylookup_set_key_ne _ _ h1]

theorem set_key_of_has_key_eq_false {kvs : List (String × PyObj)}
    {k : String} (v : PyObj) (h : has_key kvs k = false) :
    set_key kvs k v = kvs ++ [(k, v)] := by
  induction kvs with
  | nil => simp
  | cons p rest ih =>
    obtain ⟨a, b⟩ := p
    unfold has_key at h
    rw [pylookup_cons] at h
    split at h
    · simp at h
    · rename_i hak
      rw [set_key_cons, if_neg hak, List.cons_append, ih h]

/-- `fill_step` preserves existing bindings. -/
theorem pylookup_fill_step_of_some {acc : List (String × PyObj)}
    {k : String} {v : PyObj} (kv : String × PyObj)
    (h : pylookup acc k = some v) :
    pylookup (fill_step acc kv) k = some v := by
  unfold fill_step
  split
  · exact h
  · rename_i hnot
    rw [set_key_of_has_key_eq_false _ (by simpa using hnot)]
    exact pylookup_append_of_some h

/-- Folding `fill_step` over any default list preserves existing
bindings. -/
theorem pylookup_fill_fold_of_some (ds : List (String × PyObj))
    {acc : List (String × PyObj)} {k : String} {v : PyObj}
    (h : pylookup acc k = some v) :
    pylookup (ds.foldl fill_step acc) k = some v := by
  induction ds generalizing acc with
  | nil => exact h
  | cons d rest ih => exact ih (pylookup_fill_step_of_some d h)

/-- Folding `fill_step` over defaults whose keys avoid `k` leaves an
absent `k` absent. -/
theorem pylookup_fill_fold_of_none (ds : List (String × PyObj))
    {acc : List (String × PyObj)} {k : String}
    (h : pylookup acc k = none) (hk : ∀ d ∈ ds, d.1 ≠ k) :
    pylookup (ds.foldl fill_step acc) k = none := by
  induction ds generalizing acc with
  | nil => exact h
  | cons d rest ih =>
    have hd : d.1 ≠ k := hk d (by simp)
    have hstep : pylookup (fill_step acc d) k = none := by
      unfold fill_step
      split
      · exact h
      · rename_i hnot
        rw [set_key_of_has_key_eq_false _ (by simpa using hnot)]
        rw [pylookup_append_of_none h]
        simp [pylookup, hd]
    exact ih hstep (fun d' hd' => hk d' (by simp [hd']))

/-- The first absent default key gets its default, and keeps it through
the remaining folds. -/
theorem pylookup_fill_fold_default (ds : List (String × PyObj))
    {k : String} {v : PyObj} (hmem : (k, v) ∈ ds)
    (hnd : (ds.map Prod.fst).Nodup) :
    ∀ {acc : List (String × PyObj)}, pylookup acc k = none →
      pylookup (ds.foldl fill_step acc) k = some v := by
  induction ds with
  | nil => simp at hmem
  | cons d rest ih =>
    intro acc h
    rcases List.mem_cons.mp hmem with heq | hmemr
    · subst heq
      have hstep : pylookup (fill_step acc (k, v)) k = some v := by
        unfold fill_step
        rw [if_neg (by simp [has_key, h])]
        rw [set_key_of_has_key_eq_false _ (by simp [has_key, h])]
        rw [pylookup_append_of_none h]
        simp [pylookup]
      exact pylookup_fill_fold_of_some rest hstep
    · have hd : d.1 ≠ k := by
        intro hdk
        have : k ∈ rest.map Prod.fst :=
          List.mem_map.mpr ⟨(k, v), hmemr, rfl⟩
        rw [List.map_cons, List.nodup_cons] at hnd
        exact hnd.1 (hdk ▸ this)
      have hstep : pylookup (fill_step acc d) k = none := by
        unfold fill_step
        split
        · exact h
        · rename_i hnot
          rw [set_key_of_has_key_eq_false _ (by simpa using hnot)]
          rw [pylookup_append_of_none h]
          simp [pylookup, hd]
      exact ih hmemr (by rw [List.map_cons, List.nodup_cons] at hnd; exact hnd.2) hstep

/-! ### Totality of the line handler (claim C1) -/

/-- The satellite-count values on which `_telemetry['sats'] < 4`
(decode.py line 480) evaluates without raising: numbers and booleans. -/
def sats_value_ok : Option PyObj → Bool
  | some (.num _) => true
  | some (.bool _) => true
  | _ => false

/-- For a parsed JSON object, whether the record would survive the checks
before the iMet satellite-count subscript (decode.py line 480): all
required fields present, no `encrypted` key after optional filling, and a
parseable timestamp. -/
def reaches_imet_sats (cfg : DecoderCfg)
    (kvs0 : List (String × PyObj)) : Bool :=
  (DECODER_REQUIRED_FIELDS.all fun f => has_key kvs0 f) &&
  !(has_key (fill_optional kvs0) "encrypted") &&
  (match pylookup (fill_optional kvs0) "datetime" with
   | some dtv => (cfg.parse_datetime dtv).isSome
   | none => false)

/-- Nothing after `fill_optional` writes the `sats` key, so its lookup in
the record reaching the family stage equals its lookup in the parsed
object. -/
theorem pylookup_fill_optional_not_mem (kvs : List (String × PyObj))
    (k : String) (hk : ∀ d ∈ DECODER_OPTIONAL_FIELDS, d.1 ≠ k) :
    pylookup (fill_optional kvs) k = pylookup kvs k := by
  unfold fill_optional
  cases h : pylookup kvs k with
  | some v => exact pylookup_fill_fold_of_some _ h
  | none => exact pylookup_fill_fold_of_none _ h hk

/-- The family stage raises no exception provided that, for the iMet
family, the record carries a comparable `sats` value and a `datetime`
key. -/
theorem family_stage_no_raise (cfg : DecoderCfg) (st : MutState)
    (kvs : List (String × PyObj))
    (hsats : cfg.sonde_type = "iMet" →
      sats_value_ok (pylookup kvs "sats") = true)
    (hdt : cfg.sonde_type = "iMet" →
      (pylookup kvs "datetime").isSome = true) :
    ∀ e, family_stage cfg st kvs ≠ .raiseExc e := by
  intro e h
  simp only [family_stage] at h
  split at h
  · rename_i himet
    split at h
    · rename_i heq
      rw [heq] at hsats
      simp [sats_value_ok] at hsats
      exact hsats himet
    · rename_i sv heq
      rw [heq] at hsats
      have hs := hsats himet
      cases sv with
      | num q =>
        split at h
        · rename_i e' heq2
          simp [py_lt_four] at heq2
        · exact NormResult.noConfusion h
        · split at h
          · rename_i heqdt
            rw [heqdt] at hdt
            simp at hdt
            exact hdt himet
          · split at h
            · exact NormResult.noConfusion h
            · exact NormResult.noConfusion h
      | bool b =>
        split at h
        · rename_i e' heq2
          simp [py_lt_four] at heq2
        · exact NormResult.noConfusion h
        · rename_i heq2
          simp [py_lt_four] at heq2
      | null => simp [sats_value_ok] at hs
      | str s => simp [sats_value_ok] at hs
      | arr xs => simp [sats_value_ok] at hs
      | obj kk => simp [sats_value_ok] at hs
      | dt d => simp [sats_value_ok] at hs
  · exact NormResult.noConfusion h

/-- C1 (amended): `handle_decoder_line` returns (rather than raises) on
every nonempty line, provided that for the iMet family any parsed object
that reaches the satellite-count check carries a numeric or boolean
`sats` value. -/
theorem c1_normalizer_total (cfg : DecoderCfg) (st : MutState)
    (data : List Nat) (hne : data ≠ [])
    (hguard : cfg.sonde_type = "iMet" →
      ∀ kvs0, cfg.parse_json data = some (.obj kvs0) →
        reaches_imet_sats cfg kvs0 = true →
        sats_value_ok (pylookup kvs0 "sats") = true) :
    (handle_decoder_line cfg st data).isOk = true := by
  suffices h : ∀ e, normalize cfg st data ≠ .raiseExc e by
    unfold handle_decoder_line
    cases hn : normalize cfg st data with
    | raiseExc e => exact absurd hn (h e)
    | reject r s => rfl
    | accept t s => rfl
  intro e hraise
  cases data with
  | nil => exact hne rfl
  | cons c cs =>
    simp only [normalize] at hraise
    split at hraise
    · exact NormResult.noConfusion hraise
    · split at hraise
      · exact NormResult.noConfusion hraise
      · rename_i hco
        split at hraise
        · exact NormResult.noConfusion hraise
        · rename_i t heqparse
          split at hraise <;> try exact NormResult.noConfusion hraise
          rename_i kvs0
          split at hraise
          · exact NormResult.noConfusion hraise
          · rename_i hreq
            split at hraise
            · exact NormResult.noConfusion hraise
            · rename_i henc
              split at hraise
              · exact NormResult.noConfusion hraise
              · rename_i dtv heqdt
                split at hraise
                · exact NormResult.noConfusion hraise
                · rename_i d heqpd
                  have hall : (DECODER_REQUIRED_FIELDS.all
                      fun f => has_key kvs0 f) = true := by
                    by_contra hc
                    exact hreq (by simpa using hc)
                  have hencb :
                      has_key (fill_optional kvs0) "encrypted" = false := by
                    by_contra hc
                    exact henc (by simpa using hc)
                  have hreach : reaches_imet_sats cfg kvs0 = true := by
                    simp [reaches_imet_sats, hall, hencb, heqdt, heqpd]
                  refine family_stage_no_raise cfg st _ ?_ ?_ e hraise
                  · intro himet
                    have hs := hguard himet kvs0 heqparse hreach
                    rw [pylookup_derived_ne cfg _ d (by decide) (by decide)
                      (by decide) (by decide) (by decide)]
                    rw [pylookup_fill_optional_not_mem _ _ (by decide)]
                    exact hs
                  · intro _
                    rw [pylookup_derived_ne cfg _ d (by decide) (by decide)
                      (by decide) (by decide) (by decide)]
                    rw [heqdt]
                    rfl

/-! ### Concrete fixtures for counterexamples and witnesses -/

/-- ASCII bytes of a string, as the byte line the subprocess would emit. -/
def strBytes (s : String) : List Nat := s.toList.map Char.toNat

/-- A baseline configuration: RS41, no filter, no exporters, and stub
collaborators (never consulted by the inputs they are used with). -/
def cfg_base : DecoderCfg :=
  { sonde_type := "RS41", sonde_freq := 401500000,
    device_idx := .str "0", imet_location := "", timeout := 180,
    parse_json := fun _ => none, parse_datetime := fun _ => some 0,
    format_freq := fun _ => "401.500 MHz",
    imet_fix_datetime := fun _ => 0,
    imet_unique_id := fun _ _ => "IMET-54582A16",
    telem_filter := none, exporters := none }

/-- Byte 123 is `'{'`; the remainder of the valid telemetry line from the
spec's end-to-end scenario (§8). -/
def valid_tail : List Nat :=
  strBytes "\"frame\":1,\"id\":\"N123\",\"datetime\":\"2020-01-01T00:00:00Z\",\"lat\":1.0,\"lon\":2.0,\"alt\":3.0\x7d"

/-- The spec §8 line `{"frame":1,"id":"N123",...}` as bytes. -/
def valid_line : List Nat := 123 :: valid_tail

/-- What `json.loads` yields on `valid_line`. -/
def valid_obj : List (String × PyObj) :=
  [("frame", .num 1), ("id", .str "N123"),
   ("datetime", .str "2020-01-01T00:00:00Z"),
   ("lat", .num 1), ("lon", .num 2), ("alt", .num 3)]

/-- The same line with `"encrypted":false` appended (the key present with
a falsy value, to exercise the presence-only check). -/
def enc_tail : List Nat :=
  strBytes "\"frame\":1,\"id\":\"N123\",\"datetime\":\"2020-01-01T00:00:00Z\",\"lat\":1.0,\"lon\":2.0,\"alt\":3.0,\"encrypted\":false\x7d"

/-- The encrypted telemetry line as bytes. -/
def enc_line : List Nat := 123 :: enc_tail

/-- What `json.loads` yields on `enc_line`. -/
def enc_obj : List (String × PyObj) :=
  [("frame", .num 1), ("id", .str "N123"),
   ("datetime", .str "2020-01-01T00:00:00Z"),
   ("lat", .num 1), ("lon", .num 2), ("alt", .num 3),
   ("encrypted", .bool false)]

/-- A `json.loads` stub agreeing with the real parser on the two concrete
lines used in counterexamples and witnesses. -/
def test_parse (d : List Nat) : Option PyObj :=
  if d = valid_line then some (.obj valid_obj)
  else if d = enc_line then some (.obj enc_obj)
  else none

/-- A single exporter (consumer) list. -/
def one_exporter : List (List (String × PyObj) → Except Unit Unit) :=
  [fun _ => .ok ()]

/-- RS41 configuration that parses the two fixture lines, no filter, no
exporters (`exporter=None` at construction). -/
def cfg_noexp : DecoderCfg := { cfg_base with parse_json := test_parse }

/-- Same, but with one registered exporter. -/
def cfg_exp : DecoderCfg := { cfg_noexp with exporters := some one_exporter }

/-- One exporter plus a filter that rejects every record. -/
def cfg_filter_reject : DecoderCfg :=
  { cfg_exp with telem_filter := some fun _ => .ok false }

/-- One exporter plus a filter that raises on every record. -/
def cfg_filter_raise_exp : DecoderCfg :=
  { cfg_exp with telem_filter := some fun _ => .error () }

/-- No exporters plus a filter that raises on every record. -/
def cfg_filter_raise_noexp : DecoderCfg :=
  { cfg_noexp with telem_filter := some fun _ => .error () }

/-- C1 is false as stated: on the empty line (`b""`), which the claim
explicitly includes, `data.decode('ascii')[0]` raises an uncaught
`IndexError` to the caller instead of returning a value. -/
theorem c1_counterexample :
    handle_decoder_line cfg_base initial_state [] = .error .indexError :=
  rfl

/-- Witness for `c1_normalizer_total` at a concrete nonempty line. -/
theorem c1_witness :
    (handle_decoder_line cfg_base initial_state
      (strBytes "decoder diagnostic text")).isOk = true :=
  c1_normalizer_total cfg_base initial_state _ (by decide)
    (fun h => absurd h (by decide))

/-! ### Claim C4: what dispatch returns -/

/-- C4 (amended): when an exporter collection is registered (even an empty
one), dispatch returns the filter's accept/reject boolean; but when the
exporter argument was `None`, the bare `return` at decode.py line 509
yields `None`, not the boolean. -/
theorem c4_dispatch_return (cfg : DecoderCfg) (st : MutState)
    (telem : List (String × PyObj)) :
    (cfg.exporters = none → dispatch_record cfg st telem = (.noneVal, st)) ∧
    (∀ es, cfg.exporters = some es →
      (dispatch_record cfg st telem).1 =
        .boolVal (filter_outcome cfg telem)) := by
  constructor
  · intro h
    simp [dispatch_record, h]
  · intro es h
    simp [dispatch_record, h]

/-- C4 is false as stated: the spec §8 line is normalized successfully,
no consumers are registered, and `handle_decoder_line` returns `None`
(not the accept boolean `True`) to its caller. -/
theorem c4_counterexample :
    (normalize cfg_noexp initial_state valid_line).isAccept = true ∧
    handle_decoder_line cfg_noexp initial_state valid_line =
      .ok (.noneVal, initial_state) :=
  ⟨rfl, rfl⟩

/-- Witness for `c4_dispatch_return` with `exporter=None`. -/
theorem c4_witness :
    dispatch_record cfg_noexp initial_state valid_obj =
      (.noneVal, initial_state) :=
  (c4_dispatch_return cfg_noexp initial_state valid_obj).1 rfl

/-! ### Claim C9: filter errors fail open -/

/-- C9 (amended): a filter that raises is treated as accept — the record
is forwarded to every registered consumer and `True` is returned when an
exporter collection is registered; with `exporter=None` the accept
decision still stands but the call returns `None` (decode.py line 509). -/
theorem c9_filter_fail_open (cfg : DecoderCfg) (st : MutState)
    (telem : List (String × PyObj))
    (f : List (String × PyObj) → Except Unit Bool)
    (hf : cfg.telem_filter = some f) (hraise : f telem = .error ()) :
    filter_outcome cfg telem = true ∧
    (∀ es, cfg.exporters = some es →
      dispatch_record cfg st telem =
        (.boolVal true,
          { st with exports := st.exports ++ es.map fun _ => telem })) ∧
    (cfg.exporters = none → dispatch_record cfg st telem = (.noneVal, st)) := by
  have hfo : filter_outcome cfg telem = true := by
    simp [filter_outcome, hf, hraise]
  refine ⟨hfo, ?_, ?_⟩
  · intro es h
    simp [dispatch_record, h, hfo]
  · intro h
    simp [dispatch_record, h]

/-- C9 is false as stated in the no-consumer case: the filter raises, the
fail-open decision is accept, yet the dispatch result returned to the
caller is `None`, not acceptance. -/
theorem c9_counterexample :
    filter_outcome cfg_filter_raise_noexp valid_obj = true ∧
    dispatch_record cfg_filter_raise_noexp initial_state valid_obj =
      (.noneVal, initial_state) :=
  ⟨rfl, rfl⟩

/-- Witness for `c9_filter_fail_open` with one registered consumer. -/
theorem c9_witness :
    dispatch_record cfg_filter_raise_exp initial_state valid_obj =
      (.boolVal true,
        { initial_state with
            exports := initial_state.exports ++
              one_exporter.map fun _ => valid_obj }) :=
  (c9_filter_fail_open cfg_filter_raise_exp initial_state valid_obj
    (fun _ => .error ()) rfl rfl).2.1 one_exporter rfl

/-! ### Claim C2: when the staleness clock resets -/

/-- C2 (amended): for a line the Normalizer accepts, the staleness clock
is reset exactly when `handle_decoder_line` returns a truthy value, i.e.
exactly when an exporter collection is registered and the filter accepts
(a missing or raising filter counts as accept); with `exporter=None`, or
with the filter rejecting, the clock is NOT reset. -/
theorem c2_staleness_reset (cfg : DecoderCfg) (st : MutState) (last : Rat)
    (data : List Nat) (t : Rat) (telem : List (String × PyObj))
    (stN : MutState)
    (hacc : normalize cfg st data = .accept telem stN) :
    process_lines cfg st last [(data, t)] =
      .ok ((dispatch_record cfg stN telem).2,
        if (dispatch_record cfg stN telem).1.truthy then t else last) ∧
    ((dispatch_record cfg stN telem).1.truthy = true ↔
      cfg.exporters.isSome = true ∧ filter_outcome cfg telem = true) := by
  constructor
  · cases data with
    | nil => simp [normalize] at hacc
    | cons c cs =>
      simp [process_lines, handle_decoder_line, hacc]
  · cases hexp : cfg.exporters with
    | none => simp [dispatch_record, hexp, PyRet.truthy]
    | some es => simp [dispatch_record, hexp, PyRet.truthy]

/-- C2 is false as stated: the spec §8 line is accepted by the Normalizer
in both scenarios, yet the staleness value stays `0` (is not reset to the
line's time `5`) when no consumers are registered, and likewise when the
acceptance filter rejects the record. -/
theorem c2_counterexample :
    (normalize cfg_noexp initial_state valid_line).isAccept = true ∧
    process_lines cfg_noexp initial_state 0 [(valid_line, 5)] =
      .ok (initial_state, 0) ∧
    (normalize cfg_filter_reject initial_state valid_line).isAccept = true ∧
    process_lines cfg_filter_reject initial_state 0 [(valid_line, 5)] =
      .ok (initial_state, 0) :=
  ⟨rfl, rfl, rfl, rfl⟩

/-- The record `normalize` accepts on the spec §8 line, for use in
witnesses. -/
def norm_valid (cfg : DecoderCfg) : List (String × PyObj) :=
  match normalize cfg initial_state valid_line with
  | .accept telem _ => telem
  | _ => []

/-- Witness for `c2_staleness_reset` with a registered exporter. -/
theorem c2_witness :
    process_lines cfg_exp initial_state 0 [(valid_line, 5)] =
      .ok ((dispatch_record cfg_exp initial_state (norm_valid cfg_exp)).2,
        if (dispatch_record cfg_exp initial_state
            (norm_valid cfg_exp)).1.truthy then 5 else 0) ∧
    ((dispatch_record cfg_exp initial_state
        (norm_valid cfg_exp)).1.truthy = true ↔
      cfg_exp.exporters.isSome = true ∧
      filter_outcome cfg_exp (norm_valid cfg_exp) = true) :=
  c2_staleness_reset cfg_exp initial_state 0 valid_line 5
    (norm_valid cfg_exp) initial_state rfl

/-! ### Claim C8: optional-field sentinel defaults -/

/-- C8: filling preserves every present field unchanged and gives every
absent optional field exactly its documented sentinel default
(`temp = -273.0`, `humidity = -1`, `batt = -1`, `vel_h = 0.0`,
`vel_v = 0.0`, `heading = 0.0`), on every call. -/
theorem c8_optional_defaults (kvs : List (String × PyObj)) :
    (∀ k v, pylookup kvs k = some v →
      pylookup (fill_optional kvs) k = some v) ∧
    (pylookup kvs "temp" = none →
      pylookup (fill_optional kvs) "temp" = some (.num (-273))) ∧
    (pylookup kvs "humidity" = none →
      pylookup (fill_optional kvs) "humidity" = some (.num (-1))) ∧
    (pylookup kvs "batt" = none →
      pylookup (fill_optional kvs) "batt" = some (.num (-1))) ∧
    (pylookup kvs "vel_h" = none →
      pylookup (fill_optional kvs) "vel_h" = some (.num 0)) ∧
    (pylookup kvs "vel_v" = none →
      pylookup (fill_optional kvs) "vel_v" = some (.num 0)) ∧
    (pylookup kvs "heading" = none →
      pylookup (fill_optional kvs) "heading" = some (.num 0)) := by
  have hnd : (DECODER_OPTIONAL_FIELDS.map Prod.fst).Nodup := by decide
  refine ⟨fun k v h => pylookup_fill_fold_of_some _ h, ?_, ?_, ?_, ?_, ?_, ?_⟩ <;>
    exact fun h => pylookup_fill_fold_default DECODER_OPTIONAL_FIELDS
      (by simp [DECODER_OPTIONAL_FIELDS]) hnd h

/-- Witness for `c8_optional_defaults` on the spec §8 record, which omits
all optional fields. -/
theorem c8_witness :
    pylookup (fill_optional valid_obj) "humidity" = some (.num (-1)) :=
  (c8_optional_defaults valid_obj).2.2.1 rfl

/-! ### Claim C10: the encrypted check is presence-only -/

/-- C10: any parsed object containing the key `encrypted` — whatever its
value, including `false`, `0` or `null` — that has passed the
required-field check is rejected with `False`, and the state moves to
`exit_state = "Encrypted"` with the running flag cleared (decode.py lines
449-454 test only `'encrypted' in _telemetry`). -/
theorem c10_encrypted_presence (cfg : DecoderCfg) (st : MutState)
    (c : Nat) (cs : List Nat) (kvs0 : List (String × PyObj))
    (hascii : ((c :: cs).all fun b => b < 128) = true)
    (hbrace : c = 123)
    (hparse : cfg.parse_json (c :: cs) = some (.obj kvs0))
    (hreq : (DECODER_REQUIRED_FIELDS.all fun f => has_key kvs0 f) = true)
    (henc : has_key (fill_optional kvs0) "encrypted" = true) :
    handle_decoder_line cfg st (c :: cs) =
      .ok (.boolVal false,
        { st with exit_state := "Encrypted", decoder_running := false }) := by
  subst hbrace
  have hnorm : normalize cfg st (123 :: cs) =
      .reject (.boolVal false)
        { st with exit_state := "Encrypted", decoder_running := false } := by
    simp only [normalize, hparse]
    rw [if_neg (by simp [hascii]), if_neg (by simp),
      if_neg (by simp [hreq]), if_pos henc]
  unfold handle_decoder_line
  rw [hnorm]

/-- Witness for `c10_encrypted_presence`: the fixture line carries
`"encrypted":false`, and the decoder still halts with `Encrypted`. -/
theorem c10_witness :
    handle_decoder_line cfg_exp initial_state enc_line =
      .ok (.boolVal false,
        { initial_state with exit_state := "Encrypted",
                             decoder_running := false }) :=
  c10_encrypted_presence cfg_exp initial_state 123 enc_tail enc_obj
    (by decide) rfl rfl (by decide) (by decide)

/-! ### Claim C7: exporter-argument normalization -/

/-- C7 (amended): `None`, a single plain function, and a list whose
entries are all functions or bound methods are normalized at construction
(decode.py lines 170-191); every other argument — including a single
bound method or other callable object, any non-list collection, and a
list containing any other entry — raises `TypeError` there, before the
decoder thread is started at line 206. -/
theorem c7_exporter_normalization :
    normalize_exporter .enone = .ok none ∧
    normalize_exporter (.single .func) = .ok (some [.func]) ∧
    (∀ vs, vs.all exp_entry_ok = true →
      normalize_exporter (.elist vs) = .ok (some vs)) ∧
    (∀ vs, vs.all exp_entry_ok = false →
      normalize_exporter (.elist vs) =
        .error "Supplied exporter list does not contain functions.") ∧
    (∀ v, v ≠ ExpVal.func →
      normalize_exporter (.single v) =
        .error "Supplied exporter has incorrect type.") ∧
    normalize_exporter .eother =
      .error "Supplied exporter has incorrect type." := by
  refine ⟨rfl, rfl, ?_, ?_, ?_, rfl⟩
  · intro vs h
    simp [normalize_exporter, h]
  · intro vs h
    simp [normalize_exporter, h]
  · intro v hv
    cases v with
    | func => exact absurd rfl hv
    | meth => rfl
    | callObj => rfl
    | nonCall => rfl

/-- C7 is false as stated: a single bound method is a callable, yet the
constructor raises `TypeError` on it, because line 176 tests
`type(exporter) == FunctionType` only (lists accept `MethodType` at line
183, single arguments do not). -/
theorem c7_counterexample :
    normalize_exporter (.single .meth) =
      .error "Supplied exporter has incorrect type." :=
  rfl

/-- Witness for `c7_exporter_normalization` on a function-plus-method
list. -/
theorem c7_witness :
    normalize_exporter (.elist [.func, .meth]) =
      .ok (some [.func, .meth]) :=
  c7_exporter_normalization.2.2.1 [.func, .meth] rfl

/-! ### Structural lemmas about the stages -/

/-- A `family_stage` rejection leaves the state untouched. -/
theorem family_stage_reject_state (cfg : DecoderCfg) (st : MutState)
    (kvs : List (String × PyObj)) :
    ∀ {r : PyRet} {st' : MutState},
      family_stage cfg st kvs = .reject r st' → st' = st := by
  intro r st' h
  simp only [family_stage] at h
  split at h
  · split at h
    · exact NormResult.noConfusion h
    · split at h
      · exact NormResult.noConfusion h
      · exact (NormResult.reject.inj h).2.symm
      · split at h
        · exact NormResult.noConfusion h
        · split at h
          · exact NormResult.noConfusion h
          · exact NormResult.noConfusion h
  · exact NormResult.noConfusion h

/-- A `family_stage` acceptance can change only the `imet_id` field. -/
theorem family_stage_accept_state (cfg : DecoderCfg) (st : MutState)
    (kvs : List (String × PyObj)) :
    ∀ {telem : List (String × PyObj)} {st' : MutState},
      family_stage cfg st kvs = .accept telem st' →
      st'.exports = st.exports ∧ st'.exit_state = st.exit_state ∧
      st'.decoder_running = st.decoder_running := by
  intro telem st' h
  simp only [family_stage] at h
  split at h
  · split at h
    · exact NormResult.noConfusion h
    · split at h
      · exact NormResult.noConfusion h
      · exact NormResult.noConfusion h
      · split at h
        · exact NormResult.noConfusion h
        · split at h
          · rw [← (NormResult.accept.inj h).2]
            exact ⟨rfl, rfl, rfl⟩
          · rw [← (NormResult.accept.inj h).2]
            exact ⟨rfl, rfl, rfl⟩
  · rw [← (NormResult.accept.inj h).2]
    exact ⟨rfl, rfl, rfl⟩

/-- For the iMet family, every accepted record is stamped under `id` with
the latched identity held in the output state, and a previously latched
identity is kept. -/
theorem family_stage_accept_imet (cfg : DecoderCfg) (st : MutState)
    (kvs : List (String × PyObj)) (himet : cfg.sonde_type = "iMet") :
    ∀ {telem : List (String × PyObj)} {st' : MutState},
      family_stage cfg st kvs = .accept telem st' →
      ∃ j, st'.imet_id = some j ∧ pylookup telem "id" = some (.str j) ∧
        (∀ i, st.imet_id = some i → j = i) := by
  intro telem st' h
  simp only [family_stage] at h
  rw [if_pos himet] at h
  split at h
  · exact NormResult.noConfusion h
  · split at h
    · exact NormResult.noConfusion h
    · exact NormResult.noConfusion h
    · split at h
      · exact NormResult.noConfusion h
      · split at h
        · rename_i i hlatch
          obtain ⟨hte, hst⟩ := NormResult.accept.inj h
          subst hte
          subst hst
          refine ⟨i, hlatch, ?_, ?_⟩
          · rw [pylookup_set_key_ne _ _ (by decide), pylookup_set_key_self]
          · intro i' hi'
            rw [hlatch] at hi'
            exact Option.some.inj hi'
        · rename_i hlatch
          obtain ⟨hte, hst⟩ := NormResult.accept.inj h
          subst hte
          subst hst
          refine ⟨_, rfl, ?_, ?_⟩
          · rw [pylookup_set_key_ne _ _ (by decide), pylookup_set_key_self]
          · intro i' hi'
            rw [hlatch] at hi'
            exact Option.noConfusion hi'

/-- Outside the iMet family, the family stage is the identity
fall-through. -/
theorem family_stage_accept_other (cfg : DecoderCfg) (st : MutState)
    (kvs : List (String × PyObj)) (hnot : ¬ cfg.sonde_type = "iMet") :
    family_stage cfg st kvs = .accept kvs st := by
  simp only [family_stage]
  rw [if_neg hnot]

/-- A `normalize` rejection can change neither `imet_id` nor the exports
log. -/
theorem normalize_reject_state (cfg : DecoderCfg) (st : MutState)
    (data : List Nat) :
    ∀ {r : PyRet} {st' : MutState},
      normalize cfg st data = .reject r st' →
      st'.imet_id = st.imet_id ∧ st'.exports = st.exports := by
  intro r st' h
  cases data with
  | nil => exact NormResult.noConfusion h
  | cons c cs =>
    simp only [normalize] at h
    split at h
    · rw [← (NormResult.reject.inj h).2]
      exact ⟨rfl, rfl⟩
    · split at h
      · rw [← (NormResult.reject.inj h).2]
        exact ⟨rfl, rfl⟩
      · split at h
        · rw [← (NormResult.reject.inj h).2]
          exact ⟨rfl, rfl⟩
        · split at h <;>
            first
            | (rw [← (NormResult.reject.inj h).2]; exact ⟨rfl, rfl⟩)
            | skip
          split at h
          · rw [← (NormResult.reject.inj h).2]
            exact ⟨rfl, rfl⟩
          · split at h
            · rw [← (NormResult.reject.inj h).2]
              exact ⟨rfl, rfl⟩
            · split at h
              · rw [← (NormResult.reject.inj h).2]
                exact ⟨rfl, rfl⟩
              · split at h
                · rw [← (NormResult.reject.inj h).2]
                  exact ⟨rfl, rfl⟩
                · rw [family_stage_reject_state cfg st _ h]
                  exact ⟨rfl, rfl⟩

/-- A `normalize` acceptance comes from the family stage on some record. -/
theorem normalize_accept_inv (cfg : DecoderCfg) (st : MutState)
    (data : List Nat) :
    ∀ {telem : List (String × PyObj)} {st' : MutState},
      normalize cfg st data = .accept telem st' →
      ∃ kvs, family_stage cfg st kvs = .accept telem st' := by
  intro telem st' h
  cases data with
  | nil => exact NormResult.noConfusion h
  | cons c cs =>
    simp only [normalize] at h
    split at h
    · exact NormResult.noConfusion h
    · split at h
      · exact NormResult.noConfusion h
      · split at h
        · exact NormResult.noConfusion h
        · split at h <;> try exact NormResult.noConfusion h
          split at h
          · exact NormResult.noConfusion h
          · split at h
            · exact NormResult.noConfusion h
            · split at h
              · exact NormResult.noConfusion h
              · split at h
                · exact NormResult.noConfusion h
                · exact ⟨_, h⟩

/-- Dispatch only appends copies of the dispatched record to the exports
log; every other state field is untouched. -/
theorem dispatch_record_state (cfg : DecoderCfg) (s : MutState)
    (telem : List (String × PyObj)) :
    (dispatch_record cfg s telem).2.imet_id = s.imet_id ∧
    (dispatch_record cfg s telem).2.exit_state = s.exit_state ∧
    (dispatch_record cfg s telem).2.decoder_running = s.decoder_running ∧
    ∃ new, (dispatch_record cfg s telem).2.exports = s.exports ++ new ∧
      ∀ x ∈ new, x = telem := by
  unfold dispatch_record
  cases cfg.exporters with
  | none => exact ⟨rfl, rfl, rfl, [], by simp⟩
  | some es =>
    by_cases hok : filter_outcome cfg telem
    · simp only [hok]
      refine ⟨by simp, by simp, by simp, es.map fun _ => telem, by simp, ?_⟩
      intro x hx
      obtain ⟨e, _, hxe⟩ := List.mem_map.mp hx
      exact hxe.symm
    · simp only [Bool.not_eq_true] at hok
      simp only [hok]
      exact ⟨by simp, by simp, by simp, [], by simp⟩

/-- Case analysis for `handle_decoder_line` in terms of `normalize`. -/
theorem handle_cases (cfg : DecoderCfg) (st : MutState) (data : List Nat) :
    (∃ e, normalize cfg st data = .raiseExc e ∧
      handle_decoder_line cfg st data = .error e) ∨
    (∃ r s, normalize cfg st data = .reject r s ∧
      handle_decoder_line cfg st data = .ok (r, s)) ∨
    (∃ telem s, normalize cfg st data = .accept telem s ∧
      handle_decoder_line cfg st data =
        .ok (dispatch_record cfg s telem)) := by
  cases hn : normalize cfg st data with
  | raiseExc e =>
    refine .inl ⟨e, rfl, ?_⟩
    unfold handle_decoder_line
    rw [hn]
  | reject r s =>
    refine .inr (.inl ⟨r, s, rfl, ?_⟩)
    unfold handle_decoder_line
    rw [hn]
  | accept t s =>
    refine .inr (.inr ⟨t, s, rfl, ?_⟩)
    unfold handle_decoder_line
    rw [hn]

/-! ### Claim C5: the iMet identity latch -/

/-- C5: the latch starts absent, a latched identity is never changed by
any later call, and (for the iMet family) every record handed to an
exporter is stamped under `id` with exactly the identity latched in the
resulting state. -/
theorem c5_identity_latch :
    initial_state.imet_id = none ∧
    (∀ cfg st data r st' i, handle_decoder_line cfg st data = .ok (r, st') →
      st.imet_id = some i → st'.imet_id = some i) ∧
    (∀ cfg st data r st', cfg.sonde_type = "iMet" →
      handle_decoder_line cfg st data = .ok (r, st') →
      ∃ new, st'.exports = st.exports ++ new ∧
        ∀ x ∈ new, ∃ j, st'.imet_id = some j ∧
          pylookup x "id" = some (.str j)) := by
  refine ⟨rfl, ?_, ?_⟩
  · intro cfg st data r st' i h hi
    rcases handle_cases cfg st data with
      ⟨e, hn, hh⟩ | ⟨r0, s0, hn, hh⟩ | ⟨telem, s0, hn, hh⟩
    · rw [hh] at h
      exact Except.noConfusion h
    · rw [hh] at h
      have hp := Except.ok.inj h
      injection hp with hr hs
      subst hs
      rw [(normalize_reject_state cfg st data hn).1]
      exact hi
    · rw [hh] at h
      have hp := Except.ok.inj h
      have hst' : st' = (dispatch_record cfg s0 telem).2 := by rw [hp]
      rw [hst', (dispatch_record_state cfg s0 telem).1]
      obtain ⟨kvs, hfs⟩ := normalize_accept_inv cfg st data hn
      by_cases himet : cfg.sonde_type = "iMet"
      · obtain ⟨j, hj, _, hji⟩ := family_stage_accept_imet cfg st kvs himet hfs
        rw [hj, hji i hi]
      · have hother := family_stage_accept_other cfg st kvs himet
        rw [hother] at hfs
        rw [← (NormResult.accept.inj hfs).2]
        exact hi
  · intro cfg st data r st' himet h
    rcases handle_cases cfg st data with
      ⟨e, hn, hh⟩ | ⟨r0, s0, hn, hh⟩ | ⟨telem, s0, hn, hh⟩
    · rw [hh] at h
      exact Except.noConfusion h
    · rw [hh] at h
      have hp := Except.ok.inj h
      injection hp with hr hs
      subst hs
      refine ⟨[], ?_, by simp⟩
      rw [(normalize_reject_state cfg st data hn).2, List.append_nil]
    · rw [hh] at h
      have hp := Except.ok.inj h
      have hst' : st' = (dispatch_record cfg s0 telem).2 := by rw [hp]
      obtain ⟨kvs, hfs⟩ := normalize_accept_inv cfg st data hn
      obtain ⟨j, hj, hid, _⟩ := family_stage_accept_imet cfg st kvs himet hfs
      obtain ⟨hii, _, _, new, hexp, hnew⟩ := dispatch_record_state cfg s0 telem
      refine ⟨new, ?_, ?_⟩
      · rw [hst', hexp, (family_stage_accept_state cfg st kvs hfs).1]
      · intro x hx
        refine ⟨j, ?_, ?_⟩
        · rw [hst', hii, hj]
        · rw [hnew x hx]
          exact hid

/-- A state with a latched identity, for the C5 witness. -/
def c5_state : MutState :=
  { initial_state with imet_id := some "IMET-54582A16" }

/-- Witness for `c5_identity_latch`: a diagnostic line leaves the latched
identity in place. -/
theorem c5_witness :
    handle_decoder_line cfg_base c5_state (strBytes "status message") =
      .ok (.noneVal, c5_state) ∧
    c5_state.imet_id = some "IMET-54582A16" :=
  ⟨rfl, c5_identity_latch.2.1 cfg_base c5_state (strBytes "status message")
    .noneVal c5_state "IMET-54582A16" rfl rfl⟩

/-! ### Claim C3: what an encrypted record stops -/

/-- C3 (amended): a record carrying the `encrypted` key is rejected with
state `Encrypted` and the running flag cleared, without being dispatched
(dispatch is never reached for it), and once the running flag is false no
subsequent loop iteration runs; however, lines drained in the same batch
after the encrypted record are still processed (see
`c3_counterexample`). -/
theorem c3_encrypted_stops :
    (∀ (cfg : DecoderCfg) (st : MutState) (cs : List Nat)
        (kvs0 : List (String × PyObj)),
      ((123 :: cs).all fun b => b < 128) = true →
      cfg.parse_json (123 :: cs) = some (.obj kvs0) →
      (DECODER_REQUIRED_FIELDS.all fun f => has_key kvs0 f) = true →
      has_key (fill_optional kvs0) "encrypted" = true →
      normalize cfg st (123 :: cs) =
        .reject (.boolVal false)
          { st with exit_state := "Encrypted",
                    decoder_running := false }) ∧
    (∀ (cfg : DecoderCfg) (st : MutState) (last : Rat) (ticks : List Tick),
      st.decoder_running = false → run_loop cfg st last ticks = .ok st) := by
  constructor
  · intro cfg st cs kvs0 hascii hparse hreq henc
    simp only [normalize, hparse]
    rw [if_neg (by simp [hascii]), if_neg (by simp),
      if_neg (by simp [hreq]), if_pos henc]
  · intro cfg st last ticks h
    cases ticks with
    | nil => rfl
    | cons tk rest =>
      simp only [run_loop]
      rw [if_pos (Or.inr (by simp [h]))]

/-- One loop iteration that survives the timeout check continues with the
state and staleness value left by its drain batch. -/
theorem run_loop_step (cfg : DecoderCfg) (st : MutState) (last : Rat)
    (tk : Tick) (rest : List Tick) (st' : MutState) (last' : Rat)
    (hgo : tk.eof = false) (hrun : st.decoder_running = true)
    (hpl : process_lines cfg st last tk.lines = .ok (st', last'))
    (hnt : ¬ (last' + cfg.timeout < tk.check_time)) :
    run_loop cfg st last (tk :: rest) = run_loop cfg st' last' rest := by
  simp only [run_loop, hgo, hrun]
  rw [if_neg (by simp)]
  simp only [hpl]
  rw [if_neg hnt]

/-- One loop iteration whose timeout check fires breaks out with
`exit_state = "Timeout"`. -/
theorem run_loop_step_timeout (cfg : DecoderCfg) (st : MutState)
    (last : Rat) (tk : Tick) (rest : List Tick) (st' : MutState)
    (last' : Rat)
    (hgo : tk.eof = false) (hrun : st.decoder_running = true)
    (hpl : process_lines cfg st last tk.lines = .ok (st', last'))
    (ht : last' + cfg.timeout < tk.check_time) :
    run_loop cfg st last (tk :: rest) =
      .ok { st' with exit_state := "Timeout" } := by
  simp only [run_loop, hgo, hrun]
  rw [if_neg (by simp)]
  simp only [hpl]
  rw [if_pos ht]

/-- The single drain batch holding the encrypted line followed by a valid
line, with times well before the 180 s staleness deadline. -/
def c3_tick : Tick :=
  { eof := false, lines := [(enc_line, 10), (valid_line, 11)],
    check_time := 12 }

/-- The state after draining `c3_tick`'s batch. -/
def c3_state_after : MutState :=
  match process_lines cfg_exp initial_state 0 c3_tick.lines with
  | .ok (s, _) => s
  | .error _ => initial_state

/-- C3 is false as stated: after the encrypted record flips the state to
`Encrypted`, the valid record drained in the same batch is still
processed and dispatched to the exporter — the final state carries
`exit_state = "Encrypted"` together with one export whose `id` is
`"N123"` (the record that followed the encrypted one). -/
theorem c3_counterexample :
    (Except.map
      (fun s => (s.exit_state, s.decoder_running,
        s.exports.map fun x => pylookup x "id"))
      (run_loop cfg_exp initial_state 0 [c3_tick])) =
      .ok ("Encrypted", false, [some (.str "N123")]) := by
  rw [run_loop_step cfg_exp initial_state 0 c3_tick [] c3_state_after 11
    rfl rfl rfl
    (by norm_num [cfg_exp, cfg_noexp, cfg_base, c3_tick])]
  rfl

/-- Witness for `c3_encrypted_stops` on the fixture line and a stopped
state. -/
theorem c3_witness :
    normalize cfg_exp initial_state enc_line =
      .reject (.boolVal false)
        { initial_state with exit_state := "Encrypted",
                             decoder_running := false } ∧
    run_loop cfg_exp
        { initial_state with decoder_running := false } 0 [c3_tick] =
      .ok { initial_state with decoder_running := false } :=
  ⟨c3_encrypted_stops.1 cfg_exp initial_state enc_tail enc_obj
      (by decide) rfl (by decide) (by decide),
    c3_encrypted_stops.2 cfg_exp _ 0 [c3_tick] rfl⟩

/-! ### Claim C6: timeout liveness -/

/-- A line is benign for a configuration when handling it from any
running state returns (no uncaught exception) a falsy result and leaves
the running flag and exit state unchanged — the shape of "invalid lines"
in the claim's scenario: anything rejected before the encrypted check,
e.g. non-JSON output, malformed JSON, or records missing required
fields. -/
def benign_line (cfg : DecoderCfg) (ln : List Nat) : Prop :=
  ∀ s : MutState, s.decoder_running = true →
    ∃ r s', handle_decoder_line cfg s ln = .ok (r, s') ∧
      r.truthy = false ∧ s'.decoder_running = true ∧
      s'.exit_state = s.exit_state

/-- Draining a batch of benign (or empty) lines keeps the staleness value
and the running/exit fields. -/
theorem process_lines_benign (cfg : DecoderCfg) :
    ∀ (lines : List (List Nat × Rat)) (st : MutState) (last : Rat),
      (∀ p ∈ lines, benign_line cfg p.1) →
      st.decoder_running = true →
      ∃ st', process_lines cfg st last lines = .ok (st', last) ∧
        st'.decoder_running = true ∧ st'.exit_state = st.exit_state := by
  intro lines
  induction lines with
  | nil =>
    intro st last _ hrun
    exact ⟨st, rfl, hrun, rfl⟩
  | cons p rest ih =>
    intro st last hb hrun
    obtain ⟨ln, t⟩ := p
    by_cases hemp : ln = []
    · subst hemp
      simp only [process_lines, if_pos rfl]
      exact ih st last (fun q hq => hb q (by simp [hq])) hrun
    · simp only [process_lines]
      rw [if_neg hemp]
      obtain ⟨r, s', hh, htr, hrun', hex⟩ :=
        hb (ln, t) (List.mem_cons_self _ _) st hrun
      simp only [hh, htr]
      obtain ⟨st', hres, hrun'', hex'⟩ :=
        ih s' last (fun q hq => hb q (by simp [hq])) hrun'
      refine ⟨st', ?_, hrun'', hex'.trans hex⟩
      rw [if_neg (by simp)]
      exact hres

/-- Core induction: from a running state, over a trace of non-EOF ticks
of benign lines whose check times eventually cross the staleness deadline
and are spaced at most one poll interval (0.1 s) apart (the first check
at most one interval past the deadline), the loop breaks with
`exit_state = "Timeout"` at the first crossing tick, whose check time is
within one poll interval of the deadline. -/
theorem run_loop_timeout_core (cfg : DecoderCfg) :
    ∀ (ticks : List Tick) (st : MutState) (last : Rat),
      st.decoder_running = true →
      (∀ tk ∈ ticks, tk.eof = false) →
      (∀ tk ∈ ticks, ∀ p ∈ tk.lines, benign_line cfg p.1) →
      (∃ tk ∈ ticks, last + cfg.timeout < tk.check_time) →
      (∀ tk, ticks.head? = some tk →
        tk.check_time ≤ last + cfg.timeout + 1/10) →
      List.Chain' (fun a b => b.check_time ≤ a.check_time + 1/10) ticks →
      ∃ st' tk pre post, ticks = pre ++ tk :: post ∧
        (∀ a ∈ pre, a.check_time ≤ last + cfg.timeout) ∧
        last + cfg.timeout < tk.check_time ∧
        tk.check_time ≤ last + cfg.timeout + 1/10 ∧
        run_loop cfg st last ticks = .ok st' ∧
        st'.exit_state = "Timeout" := by
  intro ticks
  induction ticks with
  | nil =>
    intro st last _ _ _ hex _ _
    rcases hex with ⟨tk, htk, _⟩
    simp at htk
  | cons tk rest ih =>
    intro st last hrun heof hben hex hhead hchain
    obtain ⟨stA, hpl, hrunA, _⟩ :=
      process_lines_benign cfg tk.lines st last (hben tk (by simp)) hrun
    by_cases hto : last + cfg.timeout < tk.check_time
    · refine ⟨{ stA with exit_state := "Timeout" }, tk, [], rest, rfl,
        by simp, hto, hhead tk rfl, ?_, rfl⟩
      exact run_loop_step_timeout cfg st last tk rest stA last
        (heof tk (by simp)) hrun hpl hto
    · have hstep := run_loop_step cfg st last tk rest stA last
        (heof tk (by simp)) hrun hpl hto
      have hex' : ∃ tk' ∈ rest, last + cfg.timeout < tk'.check_time := by
        rcases hex with ⟨tk', htk', hcross⟩
        rcases List.mem_cons.mp htk' with heq | hmem
        · subst heq
          exact absurd hcross hto
        · exact ⟨tk', hmem, hcross⟩
      have hle : tk.check_time ≤ last + cfg.timeout := le_of_not_lt hto
      have hhead' : ∀ tk', rest.head? = some tk' →
          tk'.check_time ≤ last + cfg.timeout + 1/10 := by
        intro tk' hh
        cases rest with
        | nil => simp at hh
        | cons b r2 =>
          have hb2 : tk' = b := by
            simp [List.head?] at hh
            exact hh.symm
          subst hb2
          have hrel := (List.chain'_cons.mp hchain).1
          calc tk'.check_time ≤ tk.check_time + 1/10 := hrel
            _ ≤ last + cfg.timeout + 1/10 := by linarith
      obtain ⟨st', tk', pre', post', hsplit, hpre, hcr, hub, hrl, hexit⟩ :=
        ih stA last hrunA (fun a ha => heof a (by simp [ha]))
          (fun a ha => hben a (by simp [ha])) hex' hhead' hchain.tail
      refine ⟨st', tk', tk :: pre', post', by rw [List.cons_append, hsplit],
        ?_, hcr, hub, ?_, hexit⟩
      · intro a ha
        rcases List.mem_cons.mp ha with rfl | hmem
        · exact hle
        · exact hpre a hmem
      · rw [hstep]
        exact hrl

/-- C6 (amended): starting from construction, if every drained line is
benign (handled without an uncaught exception, rejected, leaving the
loop flags unchanged — so the staleness clock is never reset), the
stream never ends, and the per-tick check times are spaced at most one
poll interval (0.1 s) apart with the first at most one interval past the
deadline, then as soon as a check time crosses `t0 + timeout` the loop
exits at that first crossing tick — within one poll interval of the
deadline — recording exit state `"Timeout"` (the spec's `TimedOut`). -/
theorem c6_timeout (cfg : DecoderCfg) (ticks : List Tick) (t0 : Rat)
    (heof : ∀ tk ∈ ticks, tk.eof = false)
    (hben : ∀ tk ∈ ticks, ∀ p ∈ tk.lines, benign_line cfg p.1)
    (hcross : ∃ tk ∈ ticks, t0 + cfg.timeout < tk.check_time)
    (hhead : ∀ tk, ticks.head? = some tk →
      tk.check_time ≤ t0 + cfg.timeout + 1/10)
    (hchain : List.Chain'
      (fun a b => b.check_time ≤ a.check_time + 1/10) ticks) :
    ∃ st' tk pre post, ticks = pre ++ tk :: post ∧
      (∀ a ∈ pre, a.check_time ≤ t0 + cfg.timeout) ∧
      t0 + cfg.timeout < tk.check_time ∧
      tk.check_time ≤ t0 + cfg.timeout + 1/10 ∧
      run_loop cfg initial_state t0 ticks = .ok st' ∧
      st'.exit_state = "Timeout" :=
  run_loop_timeout_core cfg ticks initial_state t0 rfl heof hben hcross
    hhead hchain

/-- An iMet configuration whose decoder emits records without a `sats`
field. -/
def cfg_imet_nosats : DecoderCfg := { cfg_noexp with sonde_type := "iMet" }

/-- C6 is false as stated: with an iMet decoder fed one JSON record that
lacks the `sats` field, the loop dies of an uncaught `KeyError` on the
first tick; the staleness clock is never reset, the second tick's check
time (200) is past the 180 s deadline, yet no `Timeout` exit state is
ever recorded — the thread is gone before the deadline check. -/
theorem c6_counterexample :
    run_loop cfg_imet_nosats initial_state 0
      [{ eof := false, lines := [(valid_line, 1)], check_time := 2 },
       { eof := false, lines := [], check_time := 200 }] =
      .error (.keyError "sats") :=
  rfl

/-- A single empty drain tick whose check time just crossed the
deadline. -/
def c6_tick : Tick := { eof := false, lines := [], check_time := 180 + 1/20 }

/-- Witness for `c6_timeout`: one empty tick past the 180 s deadline
makes the loop exit with `"Timeout"`. -/
theorem c6_witness :
    (Except.map MutState.exit_state
      (run_loop cfg_base initial_state 0 [c6_tick])) = .ok "Timeout" := by
  obtain ⟨st', tk, pre, post, _, _, _, _, hrun, hexit⟩ :=
    c6_timeout cfg_base [c6_tick] 0 (by simp [c6_tick]) (by simp [c6_tick])
      ⟨c6_tick, by simp, by norm_num [c6_tick, cfg_base]⟩
      (by
        intro tk h
        simp [List.head?] at h
        subst h
        norm_num [c6_tick, cfg_base])
      (by simp)
  rw [hrun]
  simp [Except.map, hexit]

end Radiosonde
